import Mathlib

/-!
Shallow embedding of the validator-set pallet
(src/chain/pallets/validator-set/src/lib.rs) and proofs about it.

Storage is `Validators : Option (Vec AccountId)` plus a boolean `Flag`.
The two dispatchables `add_validator` / `remove_validator` are modelled as
functions from an origin, an account id and the storage state to an optional
triple (new state, ordered list of observable effects, dispatch result);
`none` models a Rust panic (out-of-bounds `swap_remove`).  `new_session` and
`should_end_session` follow the `SessionManager` / `ShouldEndSession` impls.
-/

namespace ValidatorSet

/-- Storage of the pallet: `Validators get(fn validators) : Option<Vec<AccountId>>`
and `Flag get(fn flag) : bool`.  The account-id type is a parameter. -/
structure State (α : Type) where
  validators : Option (List α)
  flag : Bool
deriving DecidableEq, Repr

/-- Dispatch origin: `ensure_root` succeeds only on the root origin. -/
inductive Origin where
  | root
  | signed (who : Nat)
  | unsigned
deriving DecidableEq, Repr

/-- Dispatch errors: `BadOrigin` from `ensure_root` (the spec calls it
`Unauthorized`) and the pallet error `NoValidators` (the spec calls it
`UninitializedRegistry`). -/
inductive DispatchError where
  | badOrigin
  | noValidators
deriving DecidableEq, Repr

/-- Observable side effects of a dispatchable, in execution order:
`<Validators<T>>::put`, `session::rotate_session`, `deposit_event`,
`Flag::put`. -/
inductive Effect (α : Type) where
  | storagePut (vs : List α)
  | rotateSession
  | validatorAdded (id : α)
  | validatorRemoved (id : α)
  | flagPut (b : Bool)
deriving DecidableEq, Repr

/-- Result of dispatching a call: final state, ordered effect trace and
dispatch result; `none` models a panic. -/
abbrev CallResult (α : Type) :=
  Option (State α × List (Effect α) × Except DispatchError Unit)

/-- Rust `Vec::swap_remove(i)`: replaces element `i` by the last element and
pops; panics (here `none`) when `i` is out of bounds. -/
def swapRemove (l : List α) (i : Nat) : Option (List α) :=
  match l.getLast? with
  | none => none
  | some last => if i < l.length then some ((l.set i last).dropLast) else none

/-- The enumerated iteration `validators.clone().into_iter().enumerate()`
starting at index `n`. -/
def enumFrom (n : Nat) : List α → List (Nat × α)
  | [] => []
  | x :: xs => (n, x) :: enumFrom (n + 1) xs

/-- The `for (i, v) in ... { if v == validator_id { validators.swap_remove(i) } }`
loop body of `remove_validator`: the pair list comes from the clone taken
before the loop, while `vs` is the live, mutated vector. -/
def removeLoop [DecidableEq α] (target : α) : List (Nat × α) → List α → Option (List α)
  | [], vs => some vs
  | (i, v) :: rest, vs =>
    if v = target then
      match swapRemove vs i with
      | none => none
      | some vs2 => removeLoop target rest vs2
    else removeLoop target rest vs

/-- The whole removal loop of `remove_validator`, iterating the enumeration of
the cloned initial vector over the live vector. -/
def removeAll [DecidableEq α] (target : α) (vs : List α) : Option (List α) :=
  removeLoop target (enumFrom 0 vs) vs

/-- Dispatchable `add_validator(origin, validator_id)`. -/
def add_validator [DecidableEq α] (origin : Origin) (validator_id : α) (s : State α) :
    CallResult α :=
  match origin with
  | Origin.root =>
    match s.validators with
    | none => some (s, [], Except.error DispatchError.noValidators)
    | some validators =>
      let validators2 := validators ++ [validator_id]
      some ({ validators := some validators2, flag := true },
        [Effect.storagePut validators2, Effect.rotateSession,
         Effect.validatorAdded validator_id, Effect.flagPut true],
        Except.ok ())
  | _ => some (s, [], Except.error DispatchError.badOrigin)

/-- Dispatchable `remove_validator(origin, validator_id)`. -/
def remove_validator [DecidableEq α] (origin : Origin) (validator_id : α) (s : State α) :
    CallResult α :=
  match origin with
  | Origin.root =>
    match s.validators with
    | none => some (s, [], Except.error DispatchError.noValidators)
    | some validators =>
      match removeAll validator_id validators with
      | none => none
      | some validators2 =>
        some ({ validators := some validators2, flag := true },
          [Effect.storagePut validators2, Effect.rotateSession,
           Effect.validatorRemoved validator_id, Effect.flagPut true],
          Except.ok ())
  | _ => some (s, [], Except.error DispatchError.badOrigin)

/-- `SessionManager::new_session`: sets `Flag` to `false` and returns the
current `Validators` snapshot. -/
def new_session (_new_index : Nat) (s : State α) : State α × Option (List α) :=
  ({ s with flag := false }, s.validators)

/-- `ShouldEndSession::should_end_session`: a pure read of `Flag`. -/
def should_end_session (s : State α) (_now : Nat) : Bool :=
  s.flag

/-- Genesis: `Validators` comes from the genesis config (or stays `None`),
`Flag` has its `bool` default `false`. -/
def genesisState (cfg : Option (List α)) : State α :=
  { validators := cfg, flag := false }

/-- Operations appearing in a run of the pallet. -/
inductive Op (α : Type) where
  | add (o : Origin) (id : α)
  | remove (o : Origin) (id : α)
  | newSession (idx : Nat)
deriving DecidableEq, Repr

/-- One step of execution; `none` models a panic aborting the run. -/
def step [DecidableEq α] (op : Op α) (s : State α) : Option (State α) :=
  match op with
  | Op.add o id => (add_validator o id s).map (fun r => r.1)
  | Op.remove o id => (remove_validator o id s).map (fun r => r.1)
  | Op.newSession idx => some (new_session idx s).1

/-- Run a list of operations from a state. -/
def runAux [DecidableEq α] (s : State α) : List (Op α) → Option (State α)
  | [] => some s
  | op :: rest =>
    match step op s with
    | none => none
    | some s2 => runAux s2 rest

/-- Whether `op` is an add/remove that succeeds (dispatch result `Ok`) at
state `s`. -/
def isSuccessMut [DecidableEq α] (op : Op α) (s : State α) : Bool :=
  match op with
  | Op.add o id =>
    match add_validator o id s with
    | some (_, _, Except.ok _) => true
    | _ => false
  | Op.remove o id =>
    match remove_validator o id s with
    | some (_, _, Except.ok _) => true
    | _ => false
  | Op.newSession _ => false

/-- Whether an operation is a `new_session` call. -/
def isNewSessionOp : Op α → Bool
  | Op.newSession _ => true
  | _ => false

/-- The spec-side signal predicate "a successful membership mutation has
occurred since the last `new_session`", tracked along a run: it starts at
`p`, becomes true at every successful add/remove, is reset by `newSession`
and is untouched by anything else. -/
def runFlagSpec [DecidableEq α] (s : State α) (p : Bool) : List (Op α) → Option Bool
  | [] => some p
  | op :: rest =>
    match step op s with
    | none => none
    | some s2 =>
      runFlagSpec s2
        (if isNewSessionOp op then false else p || isSuccessMut op s) rest

/-- First index of `target` in a list, if any. -/
def firstIdx [DecidableEq α] (target : α) : List α → Option Nat
  | [] => none
  | x :: xs => if x = target then some 0 else (firstIdx target xs).map (fun i => i + 1)

/-- Modelled from the spec words "Remove the first occurrence of `id` using
unordered removal; if `id` is absent, this is a no-op": swap-remove at the
first index of `id`, the list unchanged when `id` is absent.  Used to compare
the spec sentence against the code's removal loop. -/
def specRemoveFirst [DecidableEq α] (target : α) (vs : List α) : List α :=
  match firstIdx target vs with
  | none => vs
  | some i => (swapRemove vs i).getD vs

end ValidatorSet

namespace ValidatorSet

/-- C3: for every state and session index, `new_session` sets the rotation
flag to false, returns the current registry snapshot (`none` exactly when the
registry is uninitialized), and modifies no state other than the flag. -/
theorem C3_new_session_clears_flag_returns_snapshot (s : State α) (idx : Nat) :
    (new_session idx s).1.flag = false
    ∧ (new_session idx s).1.validators = s.validators
    ∧ (new_session idx s).2 = s.validators
    ∧ ((new_session idx s).2 = none ↔ s.validators = none) :=
  ⟨rfl, rfl, rfl, Iff.rfl⟩

/-- C4: for every non-root caller, `add_validator` and `remove_validator`
fail with the authorization error (`BadOrigin`, the spec's `Unauthorized`),
return the state unchanged and emit no effect. -/
theorem C4_non_root_rejected [DecidableEq α] (o : Origin) (id id2 : α) (s s2 : State α)
    (h : o ≠ Origin.root) :
    add_validator o id s = some (s, [], Except.error DispatchError.badOrigin)
    ∧ remove_validator o id2 s2 = some (s2, [], Except.error DispatchError.badOrigin) := by
  cases o with
  | root => exact absurd rfl h
  | signed who => exact ⟨rfl, rfl⟩
  | unsigned => exact ⟨rfl, rfl⟩

/-- Closed witness for C4 at a concrete non-root origin and state. -/
theorem C4_non_root_rejected_witness :
    add_validator (Origin.signed 5) 7 ({ validators := some [1, 2], flag := false } : State Nat)
      = some ({ validators := some [1, 2], flag := false }, [], Except.error DispatchError.badOrigin)
    ∧ remove_validator (Origin.signed 5) 1 ({ validators := some [1, 2], flag := true } : State Nat)
      = some ({ validators := some [1, 2], flag := true }, [], Except.error DispatchError.badOrigin) :=
  C4_non_root_rejected (Origin.signed 5) 7 1
    { validators := some [1, 2], flag := false }
    { validators := some [1, 2], flag := true }
    (by decide)

/-- C5: if the registry is uninitialized, root calls to `add_validator` and
`remove_validator` fail with `NoValidators` (the spec's
`UninitializedRegistry`), leaving the state unchanged and emitting no
effect. -/
theorem C5_uninitialized_guard [DecidableEq α] (id id2 : α) (s s2 : State α)
    (h : s.validators = none) (h2 : s2.validators = none) :
    add_validator Origin.root id s = some (s, [], Except.error DispatchError.noValidators)
    ∧ remove_validator Origin.root id2 s2 = some (s2, [], Except.error DispatchError.noValidators) := by
  constructor
  · simp [add_validator, h]
  · simp [remove_validator, h2]

/-- Closed witness for C5 at a concrete uninitialized state. -/
theorem C5_uninitialized_guard_witness :
    add_validator Origin.root 7 ({ validators := none, flag := false } : State Nat)
      = some ({ validators := none, flag := false }, [], Except.error DispatchError.noValidators)
    ∧ remove_validator Origin.root 3 ({ validators := none, flag := true } : State Nat)
      = some ({ validators := none, flag := true }, [], Except.error DispatchError.noValidators) :=
  C5_uninitialized_guard 7 3
    { validators := none, flag := false }
    { validators := none, flag := true } rfl rfl

/-- C9: on an initialized registry, root `add_validator` appends the id at
the end of the sequence, keeping all prior elements and their order, with no
duplicate check; it emits the four effects in order and sets the flag. -/
theorem C9_add_appends [DecidableEq α] (id : α) (s : State α) (vs : List α)
    (h : s.validators = some vs) :
    add_validator Origin.root id s =
      some ({ validators := some (vs ++ [id]), flag := true },
        [Effect.storagePut (vs ++ [id]), Effect.rotateSession,
         Effect.validatorAdded id, Effect.flagPut true],
        Except.ok ()) := by
  simp [add_validator, h]

/-- Closed witness for C9: appending a duplicate of an existing id. -/
theorem C9_add_appends_witness :
    add_validator Origin.root 1 ({ validators := some [1, 2], flag := false } : State Nat)
      = some ({ validators := some [1, 2, 1], flag := true },
        [Effect.storagePut [1, 2, 1], Effect.rotateSession,
         Effect.validatorAdded 1, Effect.flagPut true],
        Except.ok ()) :=
  C9_add_appends 1 { validators := some [1, 2], flag := false } [1, 2] rfl

/-- C10 is wrong about the code: with the target occurring twice, the removal
loop passes the stale index 1 to `swap_remove` on a vector that has shrunk to
length 1, an out-of-bounds access (a Rust panic, modelled as `none`).  The
registry `[0, 0]` with target `0` is a failing input. -/
theorem C10_swap_remove_out_of_bounds :
    remove_validator Origin.root 0 ({ validators := some [0, 0], flag := false } : State Nat) = none
    ∧ removeAll 0 [0, 0] = none
    ∧ swapRemove [(0 : Nat)] 1 = none := by
  refine ⟨rfl, rfl, rfl⟩

end ValidatorSet

namespace ValidatorSet

/-- C6: within every successful `add_validator` or `remove_validator` call,
the observable effects happen in exactly the order storage mutation, external
rotation request, membership event, flag set to true. -/
theorem C6_effect_order [DecidableEq α] (id id2 : α) (s s2 t t2 : State α)
    (e e2 : List (Effect α)) (u u2 : Unit) (o o2 : Origin)
    (h : add_validator o id s = some (t, e, Except.ok u))
    (h2 : remove_validator o2 id2 s2 = some (t2, e2, Except.ok u2)) :
    (∃ nv, t.validators = some nv
      ∧ e = [Effect.storagePut nv, Effect.rotateSession,
             Effect.validatorAdded id, Effect.flagPut true])
    ∧ (∃ nv, t2.validators = some nv
      ∧ e2 = [Effect.storagePut nv, Effect.rotateSession,
              Effect.validatorRemoved id2, Effect.flagPut true]) := by
  constructor
  · cases o with
    | root =>
      cases hv : s.validators with
      | none => rw [add_validator] at h; simp [hv] at h
      | some vs =>
        rw [add_validator] at h
        simp only [hv] at h
        simp only [Option.some.injEq, Prod.mk.injEq] at h
        exact ⟨vs ++ [id], by rw [← h.1], h.2.1.symm⟩
    | signed who => simp [add_validator] at h
    | unsigned => simp [add_validator] at h
  · cases o2 with
    | root =>
      cases hv : s2.validators with
      | none => rw [remove_validator] at h2; simp [hv] at h2
      | some vs =>
        rw [remove_validator] at h2
        simp only [hv] at h2
        cases hr : removeAll id2 vs with
        | none => simp [hr] at h2
        | some vs2 =>
          simp only [hr, Option.some.injEq, Prod.mk.injEq] at h2
          exact ⟨vs2, by rw [← h2.1], h2.2.1.symm⟩
    | signed who => simp [remove_validator] at h2
    | unsigned => simp [remove_validator] at h2

/-- Closed witness for C6: a concrete successful add and a concrete
successful remove. -/
theorem C6_effect_order_witness :
    (∃ nv, ({ validators := some [1, 2], flag := true } : State Nat).validators = some nv
      ∧ [Effect.storagePut [1, 2], Effect.rotateSession,
         Effect.validatorAdded 2, Effect.flagPut true]
        = [Effect.storagePut nv, Effect.rotateSession,
           Effect.validatorAdded 2, Effect.flagPut true])
    ∧ (∃ nv, ({ validators := some [2], flag := true } : State Nat).validators = some nv
      ∧ [Effect.storagePut [2], Effect.rotateSession,
         Effect.validatorRemoved 1, Effect.flagPut true]
        = [Effect.storagePut nv, Effect.rotateSession,
           Effect.validatorRemoved 1, Effect.flagPut true]) :=
  C6_effect_order 2 1 { validators := some [1], flag := false }
    { validators := some [1, 2], flag := false }
    { validators := some [1, 2], flag := true }
    { validators := some [2], flag := true }
    [Effect.storagePut [1, 2], Effect.rotateSession,
     Effect.validatorAdded 2, Effect.flagPut true]
    [Effect.storagePut [2], Effect.rotateSession,
     Effect.validatorRemoved 1, Effect.flagPut true]
    () () Origin.root Origin.root rfl rfl

end ValidatorSet

namespace ValidatorSet

/-- C7: on an initialized registry, two successive successful root
`add_validator` calls leave the flag in the same pending state (`true`) as a
single call, and a single `new_session` then performs the one
pending-to-idle transition: afterwards the flag is `false` and
`should_end_session` returns `false`. -/
theorem C7_coalescing [DecidableEq α] (s : State α) (vs : List α) (a b : α)
    (h : s.validators = some vs) :
    ∃ s1 e1 s2 e2,
      add_validator Origin.root a s = some (s1, e1, Except.ok ())
      ∧ add_validator Origin.root b s1 = some (s2, e2, Except.ok ())
      ∧ should_end_session s1 0 = true
      ∧ should_end_session s2 0 = true
      ∧ (new_session 0 s2).1.flag = false
      ∧ should_end_session (new_session 0 s2).1 1 = false := by
  refine ⟨{ validators := some (vs ++ [a]), flag := true },
    [Effect.storagePut (vs ++ [a]), Effect.rotateSession,
     Effect.validatorAdded a, Effect.flagPut true],
    { validators := some (vs ++ [a] ++ [b]), flag := true },
    [Effect.storagePut (vs ++ [a] ++ [b]), Effect.rotateSession,
     Effect.validatorAdded b, Effect.flagPut true], ?_, ?_, rfl, rfl, rfl, rfl⟩
  · simp [add_validator, h]
  · simp [add_validator]

/-- Closed witness for C7 from the registry `[0]`, adding `1` then `2`. -/
theorem C7_coalescing_witness :
    ∃ s1 e1 s2 e2,
      add_validator Origin.root 1 ({ validators := some [0], flag := false } : State Nat)
        = some (s1, e1, Except.ok ())
      ∧ add_validator Origin.root 2 s1 = some (s2, e2, Except.ok ())
      ∧ should_end_session s1 0 = true
      ∧ should_end_session s2 0 = true
      ∧ (new_session 0 s2).1.flag = false
      ∧ should_end_session (new_session 0 s2).1 1 = false :=
  C7_coalescing { validators := some [0], flag := false } [0] 1 2 rfl

/-- C8: starting from registry `[A, B]` with `A`, `B`, `C` pairwise distinct,
root `add_validator C` followed by root `remove_validator C` succeeds and
yields a registry whose underlying set of identities is `{A, B}`. -/
theorem C8_add_remove_round_trip [DecidableEq α] (A B C : α) (f : Bool)
    (_hAB : A ≠ B) (hAC : A ≠ C) (hBC : B ≠ C) :
    ∃ s1 e1 s2 e2,
      add_validator Origin.root C ({ validators := some [A, B], flag := f } : State α)
        = some (s1, e1, Except.ok ())
      ∧ remove_validator Origin.root C s1 = some (s2, e2, Except.ok ())
      ∧ ∃ r, s2.validators = some r ∧ ∀ x, x ∈ r ↔ (x = A ∨ x = B) := by
  refine ⟨{ validators := some [A, B, C], flag := true },
    [Effect.storagePut [A, B, C], Effect.rotateSession,
     Effect.validatorAdded C, Effect.flagPut true],
    { validators := some [A, B], flag := true },
    [Effect.storagePut [A, B], Effect.rotateSession,
     Effect.validatorRemoved C, Effect.flagPut true], ?_, ?_, [A, B], rfl, ?_⟩
  · simp [add_validator]
  · simp [remove_validator, removeAll, enumFrom, removeLoop, hAC, hBC, swapRemove]
  · intro x; simp

/-- Closed witness for C8 with the concrete identities `0`, `1`, `2`. -/
theorem C8_add_remove_round_trip_witness :
    ∃ s1 e1 s2 e2,
      add_validator Origin.root 2 ({ validators := some [0, 1], flag := false } : State Nat)
        = some (s1, e1, Except.ok ())
      ∧ remove_validator Origin.root 2 s1 = some (s2, e2, Except.ok ())
      ∧ ∃ r, s2.validators = some r ∧ ∀ x, x ∈ r ↔ (x = 0 ∨ x = 1) :=
  C8_add_remove_round_trip 0 1 2 false (by decide) (by decide) (by decide)

end ValidatorSet

namespace ValidatorSet

/-- A pair produced by enumerating a list carries an element of that list. -/
lemma snd_mem_of_mem_enumFrom (n : Nat) (xs : List α) (p : Nat × α)
    (h : p ∈ enumFrom n xs) : p.2 ∈ xs := by
  induction xs generalizing n with
  | nil => cases h
  | cons x xs ih =>
    rw [enumFrom] at h
    rcases List.mem_cons.mp h with h | h
    · subst h; exact List.mem_cons_self _ _
    · exact List.mem_cons_of_mem _ (ih (n + 1) h)

/-- Enumeration distributes over append, shifting the start index. -/
lemma enumFrom_append (n : Nat) (xs ys : List α) :
    enumFrom n (xs ++ ys) = enumFrom n xs ++ enumFrom (n + xs.length) ys := by
  induction xs generalizing n with
  | nil => simp [enumFrom]
  | cons x xs ih =>
    rw [List.cons_append, enumFrom, enumFrom, ih (n + 1), List.cons_append]
    have : n + 1 + xs.length = n + (x :: xs).length := by
      simp [List.length_cons]; omega
    rw [this]

/-- The removal loop skips pairs whose element is not the target. -/
lemma removeLoop_append_no_match [DecidableEq α] (t : α) (ps qs : List (Nat × α))
    (vs : List α) (h : ∀ p ∈ ps, p.2 ≠ t) :
    removeLoop t (ps ++ qs) vs = removeLoop t qs vs := by
  induction ps with
  | nil => rfl
  | cons p rest ih =>
    obtain ⟨i, v⟩ := p
    have hv : v ≠ t := h (i, v) (List.mem_cons_self _ _)
    rw [List.cons_append, removeLoop]
    simp only [if_neg hv]
    exact ih (fun q hq => h q (List.mem_cons_of_mem _ hq))

/-- A removal loop with no matching pair returns the vector unchanged. -/
lemma removeLoop_no_match [DecidableEq α] (t : α) (ps : List (Nat × α))
    (vs : List α) (h : ∀ p ∈ ps, p.2 ≠ t) :
    removeLoop t ps vs = some vs := by
  have := removeLoop_append_no_match t ps [] vs h
  rw [List.append_nil] at this
  rw [this, removeLoop]

/-- The first index of an absent element is `none`. -/
lemma firstIdx_eq_none [DecidableEq α] (t : α) (xs : List α) (h : t ∉ xs) :
    firstIdx t xs = none := by
  induction xs with
  | nil => rfl
  | cons x xs ih =>
    have hx : ¬ x = t := fun e => h (e ▸ List.mem_cons_self _ _)
    rw [firstIdx, if_neg hx, ih (fun m => h (List.mem_cons_of_mem _ m))]
    rfl

/-- The first index of `t` in `l₁ ++ t :: l₂` is `l₁.length` when `t ∉ l₁`. -/
lemma firstIdx_append [DecidableEq α] (t : α) (l₁ l₂ : List α) (h : t ∉ l₁) :
    firstIdx t (l₁ ++ t :: l₂) = some l₁.length := by
  induction l₁ with
  | nil => simp [firstIdx]
  | cons x xs ih =>
    have hx : ¬ x = t := fun e => h (e ▸ List.mem_cons_self _ _)
    rw [List.cons_append, firstIdx, if_neg hx,
      ih (fun m => h (List.mem_cons_of_mem _ m))]
    simp

/-- Every member of a list splits it at its first occurrence. -/
lemma exists_first_split [DecidableEq α] (t : α) (vs : List α) (h : t ∈ vs) :
    ∃ l₁ l₂, vs = l₁ ++ t :: l₂ ∧ t ∉ l₁ := by
  induction vs with
  | nil => cases h
  | cons x xs ih =>
    by_cases hx : x = t
    · exact ⟨[], xs, by rw [hx]; rfl, by simp⟩
    · rcases List.mem_cons.mp h with h1 | h1
      · exact absurd h1.symm hx
      · rcases ih h1 with ⟨l₁, l₂, e, hn⟩
        refine ⟨x :: l₁, l₂, by rw [e]; rfl, ?_⟩
        intro hm
        rcases List.mem_cons.mp hm with e2 | e2
        · exact hx e2.symm
        · exact hn e2

/-- An in-bounds `swapRemove` succeeds. -/
lemma swapRemove_isSome (l : List α) (i : Nat) (h : i < l.length) :
    ∃ r, swapRemove l i = some r := by
  rw [swapRemove]
  cases hl : l.getLast? with
  | none =>
    cases l with
    | nil => simp at h
    | cons x xs => simp [List.getLast?_eq_none_iff] at hl
  | some last => exact ⟨(l.set i last).dropLast, by simp [h]⟩

/-- When the target occurs at most once, the code's removal loop computes
exactly the spec's first-occurrence swap-removal (and in particular never
goes out of bounds). -/
lemma removeAll_of_count_le_one [DecidableEq α] (t : α) (vs : List α)
    (h : vs.count t ≤ 1) : removeAll t vs = some (specRemoveFirst t vs) := by
  by_cases hm : t ∈ vs
  · rcases exists_first_split t vs hm with ⟨l₁, l₂, e, hn1⟩
    subst e
    have hn2 : t ∉ l₂ := by
      intro hm2
      rw [List.count_append, List.count_cons_self] at h
      have h2 : 0 < l₂.count t := List.count_pos_iff.mpr hm2
      omega
    have hidx : firstIdx t (l₁ ++ t :: l₂) = some l₁.length :=
      firstIdx_append t l₁ l₂ hn1
    have hlen : l₁.length < (l₁ ++ t :: l₂).length := by
      rw [List.length_append, List.length_cons]; omega
    rcases swapRemove_isSome (l₁ ++ t :: l₂) l₁.length hlen with ⟨r, hr⟩
    have hnomatch1 : ∀ p ∈ enumFrom 0 l₁, p.2 ≠ t :=
      fun p hp e2 => hn1 (e2 ▸ snd_mem_of_mem_enumFrom 0 l₁ p hp)
    have hnomatch2 : ∀ p ∈ enumFrom (l₁.length + 1) l₂, p.2 ≠ t :=
      fun p hp e2 => hn2 (e2 ▸ snd_mem_of_mem_enumFrom _ l₂ p hp)
    rw [removeAll, enumFrom_append, removeLoop_append_no_match t _ _ _ hnomatch1,
      enumFrom, removeLoop]
    simp only [Nat.zero_add]
    rw [if_pos trivial, hr]
    show removeLoop t (enumFrom (l₁.length + 1) l₂) r
      = some (specRemoveFirst t (l₁ ++ t :: l₂))
    rw [removeLoop_no_match t _ _ hnomatch2]
    unfold specRemoveFirst
    rw [hidx]
    simp [hr]
  · have hnomatch : ∀ p ∈ enumFrom 0 vs, p.2 ≠ t :=
      fun p hp e2 => hm (e2 ▸ snd_mem_of_mem_enumFrom 0 vs p hp)
    rw [removeAll, removeLoop_no_match t _ _ hnomatch, specRemoveFirst,
      firstIdx_eq_none t vs hm]

end ValidatorSet

namespace ValidatorSet

/-- C1 fails as stated: on the initialized registry `[0, 0, 1]` the code's
`remove_validator` (as root) of `0` yields `[1]`, removing both occurrences,
while removing only the first occurrence of `0` by swap-with-last (the spec's
`specRemoveFirst`) yields `[1, 0]`. -/
theorem C1_counterexample :
    (remove_validator Origin.root 0 ({ validators := some [0, 0, 1], flag := false } : State Nat))
      = some ({ validators := some [1], flag := true },
          [Effect.storagePut [1], Effect.rotateSession,
           Effect.validatorRemoved 0, Effect.flagPut true], Except.ok ())
    ∧ specRemoveFirst 0 [0, 0, 1] = [1, 0]
    ∧ ([1] : List Nat) ≠ [1, 0] :=
  ⟨rfl, rfl, by decide⟩

/-- C1 amended: when `id` occurs at most once in the initialized registry
(in particular under the spec's no-duplicates invariant), root
`remove_validator` removes the first (unique) occurrence of `id` by
swap-with-last removal, and when `id` is absent the sequence is left
unchanged (a no-op, not an error). -/
theorem C1_remove_first_occurrence_amended [DecidableEq α] (id : α) (s : State α)
    (vs : List α) (h : s.validators = some vs) (hc : vs.count id ≤ 1) :
    remove_validator Origin.root id s =
      some ({ validators := some (specRemoveFirst id vs), flag := true },
        [Effect.storagePut (specRemoveFirst id vs), Effect.rotateSession,
         Effect.validatorRemoved id, Effect.flagPut true], Except.ok ())
    ∧ (id ∉ vs → specRemoveFirst id vs = vs) := by
  constructor
  · simp [remove_validator, h, removeAll_of_count_le_one id vs hc]
  · intro hm
    rw [specRemoveFirst, firstIdx_eq_none id vs hm]

/-- Closed witness for the amended C1: removing `7` from `[5, 7]` gives
`[5]`, and removing the absent `9` from `[5, 7]` is a no-op. -/
theorem C1_remove_first_occurrence_amended_witness :
    (remove_validator Origin.root 7 ({ validators := some [5, 7], flag := false } : State Nat)
      = some ({ validators := some (specRemoveFirst 7 [5, 7]), flag := true },
          [Effect.storagePut (specRemoveFirst 7 [5, 7]), Effect.rotateSession,
           Effect.validatorRemoved 7, Effect.flagPut true], Except.ok ())
      ∧ ((7 : Nat) ∉ [5, 7] → specRemoveFirst 7 [5, 7] = [5, 7]))
    ∧ (remove_validator Origin.root 9 ({ validators := some [5, 7], flag := false } : State Nat)
      = some ({ validators := some (specRemoveFirst 9 [5, 7]), flag := true },
          [Effect.storagePut (specRemoveFirst 9 [5, 7]), Effect.rotateSession,
           Effect.validatorRemoved 9, Effect.flagPut true], Except.ok ())
      ∧ ((9 : Nat) ∉ [5, 7] → specRemoveFirst 9 [5, 7] = [5, 7]))
    ∧ specRemoveFirst 7 [5, 7] = [5]
    ∧ specRemoveFirst 9 [5, 7] = [5, 7] :=
  ⟨C1_remove_first_occurrence_amended 7 { validators := some [5, 7], flag := false }
      [5, 7] rfl (by decide),
   C1_remove_first_occurrence_amended 9 { validators := some [5, 7], flag := false }
      [5, 7] rfl (by decide),
   rfl, rfl⟩

end ValidatorSet

namespace ValidatorSet

/-- One-step flag characterization: after a non-panicking step the flag is
`false` after `new_session`, `true` after a successful add/remove, and
unchanged otherwise. -/
lemma step_flag [DecidableEq α] (op : Op α) (s s2 : State α) (h : step op s = some s2) :
    s2.flag = (if isNewSessionOp op then false
      else if isSuccessMut op s then true else s.flag) := by
  cases op with
  | newSession idx =>
    simp only [step, Option.some.injEq] at h
    rw [← h]
    rfl
  | add o id =>
    cases o with
    | root =>
      cases hv : s.validators with
      | none =>
        simp [step, add_validator, hv] at h
        simp [isNewSessionOp, isSuccessMut, add_validator, hv, ← h]
      | some vs =>
        simp [step, add_validator, hv] at h
        simp [isNewSessionOp, isSuccessMut, add_validator, hv, ← h]
    | signed who =>
      simp [step, add_validator] at h
      simp [isNewSessionOp, isSuccessMut, add_validator, ← h]
    | unsigned =>
      simp [step, add_validator] at h
      simp [isNewSessionOp, isSuccessMut, add_validator, ← h]
  | remove o id =>
    cases o with
    | root =>
      cases hv : s.validators with
      | none =>
        simp [step, remove_validator, hv] at h
        simp [isNewSessionOp, isSuccessMut, remove_validator, hv, ← h]
      | some vs =>
        cases hr : removeAll id vs with
        | none => simp [step, remove_validator, hv, hr] at h
        | some vs2 =>
          simp [step, remove_validator, hv, hr] at h
          simp [isNewSessionOp, isSuccessMut, remove_validator, hv, hr, ← h]
    | signed who =>
      simp [step, remove_validator] at h
      simp [isNewSessionOp, isSuccessMut, remove_validator, ← h]
    | unsigned =>
      simp [step, remove_validator] at h
      simp [isNewSessionOp, isSuccessMut, remove_validator, ← h]

/-- Along any non-panicking run, the flag equals the tracked spec predicate
"successful mutation since the last `new_session`". -/
lemma runFlagSpec_eq_flag [DecidableEq α] (ops : List (Op α)) :
    ∀ s s2 : State α, runAux s ops = some s2 →
      runFlagSpec s s.flag ops = some s2.flag := by
  induction ops with
  | nil =>
    intro s s2 h
    simp only [runAux, Option.some.injEq] at h
    rw [h]
    rfl
  | cons op rest ih =>
    intro s s2 h
    rw [runAux] at h
    cases hs : step op s with
    | none => rw [hs] at h; cases h
    | some s1 =>
      simp only [hs] at h
      rw [runFlagSpec]
      simp only [hs]
      have hf := step_flag op s s1 hs
      have he : (if isNewSessionOp op then false
          else s.flag || isSuccessMut op s) = s1.flag := by
        rw [hf]
        cases op with
        | newSession idx => rfl
        | add o id =>
          cases hsm : isSuccessMut (Op.add o id) s <;> simp [isNewSessionOp, hsm]
        | remove o id =>
          cases hsm : isSuccessMut (Op.remove o id) s <;> simp [isNewSessionOp, hsm]
      rw [he]
      exact ih s1 s2 h

/-- C2: for every genesis configuration and every sequence of operations that
runs without panicking, the rotation flag (as read by `should_end_session`)
equals the predicate "a successful add/remove has occurred since the last
`new_session`": it becomes true exactly at successful adds/removes, false
exactly at `new_session`, and changes at no other time. -/
theorem C2_signal_lifecycle [DecidableEq α] (cfg : Option (List α)) (ops : List (Op α))
    (s2 : State α) (h : runAux (genesisState cfg) ops = some s2) :
    runFlagSpec (genesisState cfg) false ops = some (should_end_session s2 0) :=
  runFlagSpec_eq_flag ops (genesisState cfg) s2 h

/-- Closed witness for C2: a successful add, then a rejected non-root remove
(which must not touch the flag), then a `new_session` clearing it. -/
theorem C2_signal_lifecycle_witness :
    runFlagSpec (genesisState (some [0])) false
        [Op.add Origin.root 1, Op.remove (Origin.signed 2) 0, Op.newSession 0]
      = some (should_end_session ({ validators := some [0, 1], flag := false } : State Nat) 0) :=
  C2_signal_lifecycle (some [0])
    [Op.add Origin.root 1, Op.remove (Origin.signed 2) 0, Op.newSession 0]
    { validators := some [0, 1], flag := false } rfl

end ValidatorSet
